import Mathlib

/-!
Verification development for the riothack experiment scripts.

Shallow embedding of:
- experiments/common_complaints/review_analysis.py (review categorization pipeline)
- experiments/mcp/lol_wiki.py (wiki MCP tools and task fan-out)
- experiments/s3/transcribe.py (video transcription pipeline)
- experiments/download_matches/get_match_dates.py (match date fetch loop)

External collaborators (the OpenAI client, HTTP fetches, yt-dlp, OpenSearch,
the Riot API) are modelled as oracle functions passed explicitly; a raised
Python exception is modelled as Except.error carrying the message string.
-/

/- ===== review_analysis.py : data model ===== -/

/-- review_analysis.py lines 47-53: pydantic sub-model, all flags default False. -/
structure LearningCurveAndComplexity where
  learning_champions : Bool
  understanding_systems : Bool
  steep_curve : Bool
  bad_tutorial : Bool
  mechanics_difficult : Bool
deriving DecidableEq

/-- review_analysis.py lines 55-58. -/
structure HostileCommunityEnvironment where
  flamed_for_mistakes : Bool
  toxic_teammates : Bool
deriving DecidableEq

/-- review_analysis.py lines 60-64. -/
structure MatchmakingIssues where
  smurfs : Bool
  unfair_matchmaking : Bool
  long_queue : Bool
  long_matches : Bool
deriving DecidableEq

/-- review_analysis.py lines 67-68. -/
structure TimeInvestmentRequirements where
  slow_progress : Bool
deriving DecidableEq

/-- review_analysis.py lines 71-73. -/
structure TechnicalAndInterfaceIssues where
  bad_ui : Bool
  client_bugs : Bool
deriving DecidableEq

/-- review_analysis.py lines 76-81: the five fields are declared with a type
annotation and NO default value, so under pydantic they are required fields. -/
structure ReviewCategories where
  learning_curve_and_complexity : LearningCurveAndComplexity
  hostile_community_environment : HostileCommunityEnvironment
  matchmaking_issues : MatchmakingIssues
  time_investment_requirements : TimeInvestmentRequirements
  technical_and_interface_issues : TechnicalAndInterfaceIssues
deriving DecidableEq

/-- The all-false flag assignment (the defaults declared on the five sub-models). -/
def ReviewCategories.allFalse : ReviewCategories :=
  ⟨⟨false, false, false, false, false⟩, ⟨false, false⟩,
   ⟨false, false, false, false⟩, ⟨false⟩, ⟨false, false⟩⟩

/-- Bare construction ReviewCategories() as pydantic executes it: the five
sub-model fields of ReviewCategories (lines 76-81) carry no default value, so
pydantic treats them as required and BaseModel validation of a call with no
arguments raises ValidationError (five missing-field errors). The sub-models
themselves have all-false defaults, but that does not supply a default for the
fields of ReviewCategories. Hence the call raises rather than producing
ReviewCategories.allFalse. -/
def ReviewCategories.construct : Except String ReviewCategories :=
  Except.error "ValidationError: 5 validation errors for ReviewCategories (field required)"

/-- The dict returned by categorize_review (review_analysis.py lines 112-116). -/
structure ReviewResult where
  review : String
  categories : ReviewCategories
  index : Nat
deriving DecidableEq

/-- The outcome of one client.beta.chat.completions.parse call, as observed by
categorize_review: Except.error e models the call raising e; Except.ok none
models a response whose parsed field is falsy; Except.ok (some c) models a
successfully parsed ReviewCategories value. -/
abbrev LLMOracle : Type := String → Except String (Option ReviewCategories)

/-- review_analysis.py lines 84-125, categorize_review. On a successful parse
it returns the dict with the parsed categories, review text and index. When
the parsed result is falsy (line 109) or the API call raises (line 118), it
evaluates ReviewCategories(), which itself raises ValidationError (see
ReviewCategories.construct); in the falsy case that error is then caught by
the except branch which evaluates ReviewCategories() again, so in both cases
the function raises the ValidationError instead of returning. -/
def categorize_review (llm : LLMOracle) (review : String) (review_index : Nat) :
    Except String ReviewResult :=
  match llm review with
  | Except.ok (some c) => Except.ok ⟨review, c, review_index⟩
  | Except.ok none =>
      match ReviewCategories.construct with
      | Except.ok d => Except.ok ⟨review, d, review_index⟩
      | Except.error e => Except.error e
  | Except.error _ =>
      match ReviewCategories.construct with
      | Except.ok d => Except.ok ⟨review, d, review_index⟩
      | Except.error e => Except.error e

/-- review_analysis.py lines 142-148: the list produced by asyncio.gather with
return_exceptions=True, in task submission order (gather returns results at
the position of the corresponding input task, independent of completion
order): entry i is the value or raised exception of process_single_review
applied to reviews[i] and index i. -/
def gather_review_tasks (llm : LLMOracle) (reviews : List String) :
    List (Except String ReviewResult) :=
  reviews.enum.map (fun p => categorize_review llm p.2 p.1)

/-- The dicts kept by the exception filter at review_analysis.py lines 154-159:
results that are exceptions are skipped, the rest retained in order. -/
def review_task_successes (llm : LLMOracle) (reviews : List String) : List ReviewResult :=
  (gather_review_tasks llm reviews).filterMap
    (fun r => match r with | Except.ok v => some v | Except.error _ => none)

/-- review_analysis.py line 162: processed_results.sort(key=lambda x: x[index]). -/
def sortByIndex (l : List ReviewResult) : List ReviewResult :=
  List.insertionSort (fun a b => a.index ≤ b.index) l

/-- review_analysis.py lines 128-164, process_reviews_parallel, after the
semaphore has been created: gather all tasks, drop exception results, sort the
survivors by their original index. -/
def process_reviews_parallel (llm : LLMOracle) (reviews : List String) : List ReviewResult :=
  sortByIndex (review_task_successes llm reviews)

/-- asyncio.Semaphore(value): the constructor raises ValueError when value is
negative, otherwise it holds value permits. -/
def Semaphore.new (value : Int) : Except String Nat :=
  if value < 0 then Except.error "Semaphore initial value must be >= 0"
  else Except.ok value.toNat

/-- How one call of process_reviews_parallel terminates, seen from the caller. -/
inductive RunOutcome (α : Type) where
  | raised (msg : String)
  | hangs
  | returned (v : α)
deriving DecidableEq

/-- process_reviews_parallel including the asyncio.Semaphore(max_concurrent)
construction on line 132. A negative bound raises ValueError out of the call.
A zero bound raises nothing: the semaphore starts with zero permits, so with a
nonempty batch every task blocks in the acquire on line 135 and the gather on
line 148 never completes (the deadlock is proved against the scheduler model
below: with zero permits no step is enabled). Otherwise the call returns the
sorted results; per-item faults are absorbed by the filter on lines 154-159
and never raise. -/
def process_reviews_parallel_run (llm : LLMOracle) (reviews : List String)
    (max_concurrent : Int) : RunOutcome (List ReviewResult) :=
  match Semaphore.new max_concurrent with
  | Except.error e => RunOutcome.raised e
  | Except.ok permits =>
      if permits = 0 ∧ reviews ≠ [] then RunOutcome.hangs
      else RunOutcome.returned (process_reviews_parallel llm reviews)

/- ===== review_analysis.py : calculate_frequencies ===== -/

/-- Counter mirror of LearningCurveAndComplexity. -/
structure LearningCurveCounts where
  learning_champions : Nat
  understanding_systems : Nat
  steep_curve : Nat
  bad_tutorial : Nat
  mechanics_difficult : Nat
deriving DecidableEq

/-- Counter mirror of HostileCommunityEnvironment. -/
structure HostileCommunityCounts where
  flamed_for_mistakes : Nat
  toxic_teammates : Nat
deriving DecidableEq

/-- Counter mirror of MatchmakingIssues. -/
structure MatchmakingCounts where
  smurfs : Nat
  unfair_matchmaking : Nat
  long_queue : Nat
  long_matches : Nat
deriving DecidableEq

/-- Counter mirror of TimeInvestmentRequirements. -/
structure TimeInvestmentCounts where
  slow_progress : Nat
deriving DecidableEq

/-- Counter mirror of TechnicalAndInterfaceIssues. -/
structure TechnicalCounts where
  bad_ui : Nat
  client_bugs : Nat
deriving DecidableEq

/-- The nested frequency dict built by calculate_frequencies
(review_analysis.py lines 167-187), keyed exactly by the CATEGORIES table. -/
structure Frequencies where
  learning_curve_and_complexity : LearningCurveCounts
  hostile_community_environment : HostileCommunityCounts
  matchmaking_issues : MatchmakingCounts
  time_investment_requirements : TimeInvestmentCounts
  technical_and_interface_issues : TechnicalCounts
deriving DecidableEq

/-- review_analysis.py lines 171-175: all counters initialized to zero. -/
def initFrequencies : Frequencies :=
  ⟨⟨0, 0, 0, 0, 0⟩, ⟨0, 0⟩, ⟨0, 0, 0, 0⟩, ⟨0⟩, ⟨0, 0⟩⟩

/-- Contribution of one boolean flag: line 183, increment when the value is
truthy (and the key is in the table, which in the typed model always holds). -/
def countFlag (b : Bool) : Nat := if b then 1 else 0

/-- review_analysis.py lines 178-184: fold one categorized item into the
frequency counters. -/
def addCounts (f : Frequencies) (c : ReviewCategories) : Frequencies :=
  ⟨⟨f.learning_curve_and_complexity.learning_champions + countFlag c.learning_curve_and_complexity.learning_champions,
    f.learning_curve_and_complexity.understanding_systems + countFlag c.learning_curve_and_complexity.understanding_systems,
    f.learning_curve_and_complexity.steep_curve + countFlag c.learning_curve_and_complexity.steep_curve,
    f.learning_curve_and_complexity.bad_tutorial + countFlag c.learning_curve_and_complexity.bad_tutorial,
    f.learning_curve_and_complexity.mechanics_difficult + countFlag c.learning_curve_and_complexity.mechanics_difficult⟩,
   ⟨f.hostile_community_environment.flamed_for_mistakes + countFlag c.hostile_community_environment.flamed_for_mistakes,
    f.hostile_community_environment.toxic_teammates + countFlag c.hostile_community_environment.toxic_teammates⟩,
   ⟨f.matchmaking_issues.smurfs + countFlag c.matchmaking_issues.smurfs,
    f.matchmaking_issues.unfair_matchmaking + countFlag c.matchmaking_issues.unfair_matchmaking,
    f.matchmaking_issues.long_queue + countFlag c.matchmaking_issues.long_queue,
    f.matchmaking_issues.long_matches + countFlag c.matchmaking_issues.long_matches⟩,
   ⟨f.time_investment_requirements.slow_progress + countFlag c.time_investment_requirements.slow_progress⟩,
   ⟨f.technical_and_interface_issues.bad_ui + countFlag c.technical_and_interface_issues.bad_ui,
    f.technical_and_interface_issues.client_bugs + countFlag c.technical_and_interface_issues.client_bugs⟩⟩

/-- review_analysis.py lines 167-187, calculate_frequencies: start from the
zero counters and fold every categorized item in list order. -/
def calculate_frequencies (categorized : List ReviewResult) : Frequencies :=
  categorized.foldl (fun f item => addCounts f item.categories) initFrequencies

/- ===== lol_wiki.py : task fan-out and the five MCP tools ===== -/

/-- The outcome of one task handed to execute_tasks_and_combine
(lol_wiki.py line 109, asyncio.gather with return_exceptions=True):
Except.error e models a task that raised e; Except.ok none models
parse_wiki_page returning None (its except branch, line 87); Except.ok (some s)
models a successful page text. -/
abbrev WikiTaskOutcome : Type := Except String (Option String)

/-- lol_wiki.py lines 113: the per-task name, task_names[i] when i is in
range, otherwise the fallback label with the task index. -/
def taskLabel (task_names : Option (List String)) (i : Nat) : String :=
  match task_names with
  | none => "Task " ++ toString i
  | some ns => (ns.get? i).getD ("Task " ++ toString i)

/-- lol_wiki.py lines 115-121: the string appended per task outcome. -/
def combineEntry (name : String) : WikiTaskOutcome → String
  | Except.error e => "Error executing " ++ name ++ ": " ++ e
  | Except.ok none => "Error fetching data for " ++ name ++ ": No data returned"
  | Except.ok (some s) => s

/-- lol_wiki.py lines 111-121: combined_data, one entry per task outcome in
submission order. -/
def combinedEntries (tasks : List WikiTaskOutcome) (task_names : Option (List String)) :
    List String :=
  tasks.enum.map (fun p => combineEntry (taskLabel task_names p.1) p.2)

/-- lol_wiki.py lines 90-123, execute_tasks_and_combine. -/
def execute_tasks_and_combine (tasks : List WikiTaskOutcome)
    (task_names : Option (List String)) (separator : String) : String :=
  String.intercalate separator (combinedEntries tasks task_names)

/-- lol_wiki.py line 20. -/
def LOL_WIKI_BASE : String := "https://wiki.leagueoflegends.com/en-us"

/-- lol_wiki.py line 126 (the runes, spells, items and monsters limits on
lines 147, 167, 188 and 208 are likewise 5). -/
def MAX_CHAMPIONS_PER_CALL : Nat := 5

/-- Default value of the separator argument of execute_tasks_and_combine. -/
def defaultSeparator : String := "\n\n"

/-- The page-fetch collaborator: parse_wiki_page never raises (it catches
every exception and returns None), so one fetch is an Option String keyed by
the page url. The page type only affects the extracted text, which the oracle
absorbs. -/
abbrev FetchOracle : Type := String → Option String

/-- lol_wiki.py lines 139-143: the task list of get_champion_data, one
parse_wiki_page call per name in the truncated list. -/
def championTasks (fetch : FetchOracle) (champion_names : List String) :
    List WikiTaskOutcome :=
  (champion_names.take MAX_CHAMPIONS_PER_CALL).map
    (fun n => Except.ok (fetch (LOL_WIKI_BASE ++ "/" ++ n)))

/-- lol_wiki.py lines 129-144, get_champion_data: truncate to the first 5
names, fetch each, combine with the truncated names as task names. -/
def get_champion_data (fetch : FetchOracle) (champion_names : List String) : String :=
  execute_tasks_and_combine (championTasks fetch champion_names)
    (some (champion_names.take MAX_CHAMPIONS_PER_CALL)) defaultSeparator

/-- lol_wiki.py lines 159-163: the task list of get_runes_data. -/
def runesTasks (fetch : FetchOracle) (runes : List String) : List WikiTaskOutcome :=
  (runes.take MAX_CHAMPIONS_PER_CALL).map
    (fun n => Except.ok (fetch (LOL_WIKI_BASE ++ "/" ++ n)))

/-- lol_wiki.py lines 150-164, get_runes_data. -/
def get_runes_data (fetch : FetchOracle) (runes : List String) : String :=
  execute_tasks_and_combine (runesTasks fetch runes)
    (some (runes.take MAX_CHAMPIONS_PER_CALL)) defaultSeparator

/-- lol_wiki.py lines 179-184: the task list of get_summoner_spell_data. -/
def summonerSpellTasks (fetch : FetchOracle) (summoner_spells : List String) :
    List WikiTaskOutcome :=
  (summoner_spells.take MAX_CHAMPIONS_PER_CALL).map
    (fun n => Except.ok (fetch (LOL_WIKI_BASE ++ "/" ++ n)))

/-- lol_wiki.py lines 170-185, get_summoner_spell_data. -/
def get_summoner_spell_data (fetch : FetchOracle) (summoner_spells : List String) : String :=
  execute_tasks_and_combine (summonerSpellTasks fetch summoner_spells)
    (some (summoner_spells.take MAX_CHAMPIONS_PER_CALL)) defaultSeparator

/-- lol_wiki.py lines 200-204: the task list of get_item_data. -/
def itemTasks (fetch : FetchOracle) (items : List String) : List WikiTaskOutcome :=
  (items.take MAX_CHAMPIONS_PER_CALL).map
    (fun n => Except.ok (fetch (LOL_WIKI_BASE ++ "/" ++ n)))

/-- lol_wiki.py lines 191-205, get_item_data. -/
def get_item_data (fetch : FetchOracle) (items : List String) : String :=
  execute_tasks_and_combine (itemTasks fetch items)
    (some (items.take MAX_CHAMPIONS_PER_CALL)) defaultSeparator

/-- lol_wiki.py lines 220-224: the task list of get_monster_data. -/
def monsterTasks (fetch : FetchOracle) (monster_names : List String) :
    List WikiTaskOutcome :=
  (monster_names.take MAX_CHAMPIONS_PER_CALL).map
    (fun n => Except.ok (fetch (LOL_WIKI_BASE ++ "/" ++ n)))

/-- lol_wiki.py lines 211-225, get_monster_data. -/
def get_monster_data (fetch : FetchOracle) (monster_names : List String) : String :=
  execute_tasks_and_combine (monsterTasks fetch monster_names)
    (some (monster_names.take MAX_CHAMPIONS_PER_CALL)) defaultSeparator

/- ===== transcribe.py : stages, jobs, pipeline ===== -/

/-- transcribe.py lines 19-27, ProcessingStage. -/
inductive ProcessingStage where
  | pending
  | downloading
  | transcribing
  | summarizing
  | uploading
  | completed
  | failed
deriving DecidableEq

/-- transcribe.py lines 29-42, TranscriptionJob. Timestamps are abstract Nat
ticks. -/
structure TranscriptionJob where
  url : String
  job_id : String
  title : Option String
  status : ProcessingStage
  transcription : Option String
  summary : Option String
  error : Option String
  created_at : Nat
  completed_at : Option Nat
  audio_file_path : Option String
  tags : List String
deriving DecidableEq

/-- The job as created in transcribe_videos (transcribe.py lines 113-118):
status PENDING, every result field unset. -/
def TranscriptionJob.make (url job_id : String) (created_at : Nat)
    (tags : List String) : TranscriptionJob :=
  ⟨url, job_id, none, ProcessingStage.pending, none, none, none, created_at,
   none, none, tags⟩

/-- Decidable equality for Except values, used by the derived instances below. -/
instance {ε α : Type} [DecidableEq ε] [DecidableEq α] : DecidableEq (Except ε α)
  | Except.error a, Except.error b =>
      if h : a = b then Decidable.isTrue (by rw [h])
      else Decidable.isFalse (fun hc => by cases hc; exact h rfl)
  | Except.error _, Except.ok _ => Decidable.isFalse (fun hc => by cases hc)
  | Except.ok _, Except.error _ => Decidable.isFalse (fun hc => by cases hc)
  | Except.ok a, Except.ok b =>
      if h : a = b then Decidable.isTrue (by rw [h])
      else Decidable.isFalse (fun hc => by cases hc; exact h rfl)

/-- The collaborator outcomes one run of _process_video can observe for a
single video: the download (ok yields audio path and title, error models a
raised exception), the transcription call, whether an OpenSearch client was
configured, and the upload call. -/
structure VideoOutcomes where
  download : Except String (String × String)
  transcribe_result : Except String String
  has_opensearch : Bool
  upload : Except String Unit
deriving DecidableEq

/-- transcribe.py lines 135-172, _process_video, as the list of successive
values of the job record: the job before the call, then one snapshot per field
assignment, in program order. The SUMMARIZING step (lines 150-152) is
commented out in the source and therefore absent. On an exception the except
branch (lines 162-164) first sets error, then sets status FAILED. The finally
branch only removes the audio file on disk and does not mutate the job. -/
def process_video_snapshots (job : TranscriptionJob) (o : VideoOutcomes)
    (now : Nat) : List TranscriptionJob :=
  let j1 := { job with status := ProcessingStage.downloading }
  match o.download with
  | Except.error e =>
      let jf := { j1 with error := some e }
      [job, j1, jf, { jf with status := ProcessingStage.failed }]
  | Except.ok (audio_path, title) =>
      let j2 := { j1 with audio_file_path := some audio_path }
      let j3 := { j2 with title := some title }
      let j4 := { j3 with status := ProcessingStage.transcribing }
      match o.transcribe_result with
      | Except.error e =>
          let jf := { j4 with error := some e }
          [job, j1, j2, j3, j4, jf, { jf with status := ProcessingStage.failed }]
      | Except.ok t =>
          let j5 := { j4 with transcription := some t }
          if o.has_opensearch then
            let j6 := { j5 with status := ProcessingStage.uploading }
            match o.upload with
            | Except.error e =>
                let jf := { j6 with error := some e }
                [job, j1, j2, j3, j4, j5, j6, jf,
                 { jf with status := ProcessingStage.failed }]
            | Except.ok _ =>
                let j7 := { j6 with completed_at := some now }
                [job, j1, j2, j3, j4, j5, j6, j7,
                 { j7 with status := ProcessingStage.completed }]
          else
            let j7 := { j5 with completed_at := some now }
            [job, j1, j2, j3, j4, j5, j7,
             { j7 with status := ProcessingStage.completed }]

/-- The job record after _process_video returns: the last snapshot. -/
def process_video (job : TranscriptionJob) (o : VideoOutcomes) (now : Nat) :
    TranscriptionJob :=
  (process_video_snapshots job o now).getLastD job

/-- The sequence of distinct values taken by job.status during _process_video,
read off the assignments in transcribe.py lines 135-164: PENDING at creation,
DOWNLOADING (line 138), TRANSCRIBING (line 146), UPLOADING (line 156, only
when an OpenSearch client is configured), COMPLETED (line 160), FAILED on any
raised stage (line 164). -/
def process_video_trace (o : VideoOutcomes) : List ProcessingStage :=
  ProcessingStage.pending :: ProcessingStage.downloading ::
    match o.download with
    | Except.error _ => [ProcessingStage.failed]
    | Except.ok _ =>
        ProcessingStage.transcribing ::
          match o.transcribe_result with
          | Except.error _ => [ProcessingStage.failed]
          | Except.ok _ =>
              if o.has_opensearch then
                ProcessingStage.uploading ::
                  match o.upload with
                  | Except.error _ => [ProcessingStage.failed]
                  | Except.ok _ => [ProcessingStage.completed]
              else [ProcessingStage.completed]

/-- transcribe.py lines 107-129, transcribe_videos: one job per url in
submission order, each processed through _process_video (the per-url
collaborator outcomes come from the oracle); gather with
return_exceptions=True, then the jobs list is returned in submission order. -/
def transcribe_videos (outcomes : String → VideoOutcomes)
    (job_id_of : Nat → String) (now : Nat) (video_urls : List String)
    (tags : List String) : List TranscriptionJob :=
  video_urls.enum.map
    (fun p => process_video (TranscriptionJob.make p.2 (job_id_of p.1) now tags)
      (outcomes p.2) now)

/-- transcribe.py lines 55-58: VideoTranscriber.__init__ reads OPENAI_API_KEY
from the environment and raises ValueError when it is absent or falsy (the
empty string). -/
def videoTranscriberInitCheck (openai_api_key : Option String) : Except String String :=
  match openai_api_key with
  | none => Except.error "OPENAI_API_KEY not found in environment variables"
  | some k =>
      if k = "" then Except.error "OPENAI_API_KEY not found in environment variables"
      else Except.ok k

/-- A stage is terminal when it is COMPLETED or FAILED. -/
def stageTerminal (s : ProcessingStage) : Bool :=
  match s with
  | ProcessingStage.completed => true
  | ProcessingStage.failed => true
  | _ => false

/-- Position of a stage in the pipeline order
PENDING, DOWNLOADING, TRANSCRIBING, SUMMARIZING, UPLOADING, COMPLETED, with
FAILED above every pipeline stage. -/
def stageRank : ProcessingStage → Nat
  | ProcessingStage.pending => 0
  | ProcessingStage.downloading => 1
  | ProcessingStage.transcribing => 2
  | ProcessingStage.summarizing => 3
  | ProcessingStage.uploading => 4
  | ProcessingStage.completed => 5
  | ProcessingStage.failed => 6

/-- One status transition is allowed when the source is non-terminal and the
rank strictly increases: forward moves along the pipeline order, or a move to
FAILED from any non-terminal stage. Backward transitions and transitions out
of COMPLETED or FAILED are excluded. -/
def allowedTransition (a b : ProcessingStage) : Prop :=
  stageTerminal a = false ∧ stageRank a < stageRank b

instance (a b : ProcessingStage) : Decidable (allowedTransition a b) :=
  inferInstanceAs (Decidable (stageTerminal a = false ∧ stageRank a < stageRank b))

/- ===== the admission gate: scheduler model ===== -/

/-- Where one task of the bounded runner stands: before the semaphore acquire,
holding a permit with the processor running, or finished (succeeded records
whether the processor returned or raised; the release is the same either
way). -/
inductive TaskPhase where
  | waiting
  | active
  | done (succeeded : Bool)
deriving DecidableEq

/-- Scheduler state: free permits of the semaphore plus one phase per task. -/
structure SchedState where
  avail : Nat
  phases : List TaskPhase
deriving DecidableEq

/-- All tasks submitted, none started, the semaphore holding all permits
(review_analysis.py lines 132-148 and transcribe.py lines 100-127). -/
def initState (permits n : Nat) : SchedState :=
  ⟨permits, List.replicate n TaskPhase.waiting⟩

/-- Interleaved execution: a waiting task may acquire a permit when one is
free (async with semaphore, review_analysis.py line 135, transcribe.py line
132), and an active task may finish, releasing its permit unconditionally
whether the processor returned or raised. -/
inductive SchedStep : SchedState → SchedState → Prop where
  | acquire (s : SchedState) (i a : Nat)
      (hph : s.phases.get? i = some TaskPhase.waiting)
      (hav : s.avail = a + 1) :
      SchedStep s ⟨a, s.phases.set i TaskPhase.active⟩
  | release (s : SchedState) (i : Nat) (ok : Bool)
      (hph : s.phases.get? i = some TaskPhase.active) :
      SchedStep s ⟨s.avail + 1, s.phases.set i (TaskPhase.done ok)⟩

/-- States reachable from the initial state by interleaved steps. -/
def Reachable (permits n : Nat) (s : SchedState) : Prop :=
  Relation.ReflTransGen SchedStep (initState permits n) s

/-- Number of tasks whose processor invocation is currently active. -/
def activeCount (s : SchedState) : Nat :=
  s.phases.countP (fun p => decide (p = TaskPhase.active))

/-- Whether every task has reached a terminal outcome (the join point of
asyncio.gather). -/
def allDone (s : SchedState) : Bool :=
  s.phases.all (fun p => match p with | TaskPhase.done _ => true | _ => false)

/- ===== get_match_dates.py ===== -/

/-- One HTTP response of the Riot match endpoint as the loop observes it: the
status code and, for a 200 body, the extracted
info.gameStartTimestamp (absent keys yield None, get_match_dates.py line 42). -/
structure RiotResponse where
  status : Nat
  gameStartTimestamp : Option Int
deriving DecidableEq

/-- The persisted match-dates mapping (a JSON object): an association list
from match id to the recorded timestamp. -/
abbrev MatchDates : Type := List (String × Option Int)

/-- Lookup in the mapping (the match_id in match_dates test, line 28). -/
def dictLookup : MatchDates → String → Option (Option Int)
  | [], _ => none
  | p :: rest, k => if p.1 = k then some p.2 else dictLookup rest k

/-- Python dict assignment match_dates[match_id] = timestamp (line 43):
overwrite the entry when the key is present, else append it. -/
def dictInsert : MatchDates → String → Option Int → MatchDates
  | [], k, v => [(k, v)]
  | p :: rest, k, v =>
      if p.1 = k then (k, v) :: rest else p :: dictInsert rest k v

/-- What one run of the inner while loop (get_match_dates.py lines 30-49) did
for a single match id: the mapping afterwards, the delay variable afterwards,
the snapshots written to the dates file, the sleeps performed, and the number
of HTTP requests issued. -/
structure FetchOutcome where
  dates : MatchDates
  delay : ℚ
  writes : List MatchDates
  sleeps : List ℚ
  requests : Nat
deriving DecidableEq

/-- get_match_dates.py lines 30-49, the while loop for one match id, driven by
the successive responses the endpoint returns. A 429 sleeps the current delay,
doubles it capping at 60 seconds, and retries. Any other non-200 abandons the
id (break, nothing recorded, nothing written). A 200 records the timestamp,
writes the whole mapping to the dates file, resets the delay to 0.1, sleeps
it and breaks. An exhausted response list leaves the loop state as is. -/
def fetchMatchDate (mid : String) :
    List RiotResponse → ℚ → MatchDates → FetchOutcome
  | [], delay, dates => ⟨dates, delay, [], [], 0⟩
  | r :: rest, delay, dates =>
      if r.status = 429 then
        let o := fetchMatchDate mid rest (min (delay * 2) 60) dates
        ⟨o.dates, o.delay, o.writes, delay :: o.sleeps, o.requests + 1⟩
      else if r.status ≠ 200 then ⟨dates, delay, [], [], 1⟩
      else
        let newDates := dictInsert dates mid r.gameStartTimestamp
        ⟨newDates, 1/10, [newDates], [1/10], 1⟩

/-- Cumulative log of one run of the outer for loop. -/
structure RunLog where
  dates : MatchDates
  delay : ℚ
  writes : List MatchDates
  requestedIds : List String
deriving DecidableEq

/-- get_match_dates.py lines 27-49, the for loop over match_ids: an id already
present in the mapping is skipped with no request; otherwise the while loop
runs for it, driven by the responses the endpoint gives for that id, and the
run continues with the remaining ids. requestedIds records one entry per HTTP
request issued, tagged with the match id it was for. -/
def fetchAllMatchDates (resps : String → List RiotResponse) :
    List String → ℚ → MatchDates → RunLog
  | [], delay, dates => ⟨dates, delay, [], []⟩
  | mid :: rest, delay, dates =>
      if (dictLookup dates mid).isSome then fetchAllMatchDates resps rest delay dates
      else
        let o := fetchMatchDate mid (resps mid) delay dates
        let l := fetchAllMatchDates resps rest o.delay o.dates
        ⟨l.dates, l.delay, o.writes ++ l.writes,
         List.replicate o.requests mid ++ l.requestedIds⟩

/-- One mapping extends another: every recorded entry is preserved. -/
def dictSubmap (a b : MatchDates) : Prop :=
  ∀ k v, dictLookup a k = some v → dictLookup b k = some v

/-- Oracle that always parses the all-false assignment (used at concrete
evaluation points). -/
def llmAllFalse : LLMOracle := fun _ => Except.ok (some ReviewCategories.allFalse)

/-- Oracle whose API call always raises. -/
def llmRaise : LLMOracle := fun _ => Except.error "APIConnectionError"

/- ===== lemmas : review pipeline ===== -/

/-- A task result of categorize_review is ok exactly when the LLM call
returned a parsed value; the dict then carries the review, the parsed
categories and the original index. -/
lemma categorize_review_ok (llm : LLMOracle) (r : String) (i : Nat) (v : ReviewResult)
    (h : categorize_review llm r i = Except.ok v) :
    ∃ c, llm r = Except.ok (some c) ∧ v = ⟨r, c, i⟩ := by
  unfold categorize_review at h
  cases hl : llm r with
  | ok o =>
      cases o with
      | some c =>
          rw [hl] at h
          exact ⟨c, rfl, by cases h; rfl⟩
      | none => rw [hl] at h; simp [ReviewCategories.construct] at h
  | error e => rw [hl] at h; simp [ReviewCategories.construct] at h

/-- The indices of the surviving task results form a sublist of the submitted
index column. -/
lemma successes_indices_sublist (llm : LLMOracle) :
    ∀ l : List (Nat × String),
      (((l.map (fun p => categorize_review llm p.2 p.1)).filterMap
          (fun r => match r with | Except.ok v => some v | Except.error _ => none)).map
        ReviewResult.index).Sublist (l.map Prod.fst) := by
  intro l
  induction l with
  | nil => simp
  | cons p rest ih =>
      simp only [List.map_cons, List.filterMap_cons]
      cases hcat : categorize_review llm p.2 p.1 with
      | error e => exact ih.cons _
      | ok v =>
          obtain ⟨c, _, hv⟩ := categorize_review_ok llm p.2 p.1 v hcat
          subst hv
          simpa using ih.cons₂ p.1

/-- When every task parses, every task result survives and the index column
equals the submitted one. -/
lemma successes_indices_of_all_ok (llm : LLMOracle) :
    ∀ l : List (Nat × String),
      (∀ p ∈ l, ∃ c, llm p.2 = Except.ok (some c)) →
      ((l.map (fun p => categorize_review llm p.2 p.1)).filterMap
          (fun r => match r with | Except.ok v => some v | Except.error _ => none)).map
        ReviewResult.index = l.map Prod.fst := by
  intro l
  induction l with
  | nil => intro _; simp
  | cons p rest ih =>
      intro h
      obtain ⟨c, hc⟩ := h p (List.mem_cons_self p rest)
      simp only [List.map_cons, List.filterMap_cons]
      unfold categorize_review
      rw [hc]
      simpa using ih (fun q hq => h q (List.mem_cons_of_mem p hq))

/-- sortByIndex output is sorted by index. -/
lemma sorted_sortByIndex (l : List ReviewResult) :
    List.Sorted (fun a b : ReviewResult => a.index ≤ b.index) (sortByIndex l) := by
  haveI : IsTotal ReviewResult (fun a b => a.index ≤ b.index) :=
    ⟨fun a b => Nat.le_total a.index b.index⟩
  haveI : IsTrans ReviewResult (fun a b => a.index ≤ b.index) :=
    ⟨fun a b c hab hbc => Nat.le_trans hab hbc⟩
  exact List.sorted_insertionSort _ l

/-- sortByIndex permutes its input. -/
lemma perm_sortByIndex (l : List ReviewResult) : (sortByIndex l).Perm l :=
  List.perm_insertionSort _ l

/-- A list sorted by index whose index column has no duplicates is pairwise
strictly increasing in index. -/
lemma pairwise_lt_of_sorted_nodup (l : List ReviewResult)
    (hs : List.Sorted (fun a b : ReviewResult => a.index ≤ b.index) l)
    (hn : (l.map ReviewResult.index).Nodup) :
    List.Pairwise (fun a b : ReviewResult => a.index < b.index) l := by
  have hne : List.Pairwise (fun a b : ReviewResult => a.index ≠ b.index) l :=
    List.pairwise_map.1 hn
  exact (hs.and hne).imp (fun h => Nat.lt_of_le_of_ne h.1 h.2)

/-- Any two permutations of the same results with distinct indices sort to
the same list: the returned order is independent of arrival order. -/
lemma sortByIndex_eq_of_perm (l₁ l₂ : List ReviewResult) (h : l₁.Perm l₂)
    (hn : (l₂.map ReviewResult.index).Nodup) :
    sortByIndex l₁ = sortByIndex l₂ := by
  haveI : IsAntisymm ReviewResult (fun a b => a.index < b.index) :=
    ⟨fun a b h1 h2 => absurd (Nat.lt_trans h1 h2) (Nat.lt_irrefl _)⟩
  have hperm : (sortByIndex l₁).Perm (sortByIndex l₂) :=
    (perm_sortByIndex l₁).trans (h.trans (perm_sortByIndex l₂).symm)
  have hn₂ : ((sortByIndex l₂).map ReviewResult.index).Nodup :=
    (((perm_sortByIndex l₂).map ReviewResult.index).nodup_iff).2 hn
  have hn₁ : ((sortByIndex l₁).map ReviewResult.index).Nodup :=
    ((hperm.map ReviewResult.index).nodup_iff).2 hn₂
  exact List.eq_of_perm_of_sorted (r := fun a b : ReviewResult => a.index < b.index)
    hperm
    (pairwise_lt_of_sorted_nodup _ (sorted_sortByIndex l₁) hn₁)
    (pairwise_lt_of_sorted_nodup _ (sorted_sortByIndex l₂) hn₂)

/-- The index column of the surviving results is duplicate-free. -/
lemma successes_indices_nodup (llm : LLMOracle) (reviews : List String) :
    ((review_task_successes llm reviews).map ReviewResult.index).Nodup := by
  have hsub := successes_indices_sublist llm reviews.enum
  rw [List.enum_map_fst] at hsub
  exact hsub.nodup (List.nodup_range reviews.length)

/-- Every url keeps its place: the job returned for one url keeps that url. -/
lemma process_video_url (job : TranscriptionJob) (o : VideoOutcomes) (now : Nat) :
    (process_video job o now).url = job.url := by
  obtain ⟨d, t, os, u⟩ := o
  rcases d with e | ⟨pa, pb⟩ <;> rcases t with e2 | tv <;> cases os <;>
    rcases u with e3 | ⟨⟩ <;> rfl

/- ===== claims C1, C2, C7 ===== -/

/-- C1 (counterexample): a batch of one review whose LLM call raises yields
zero results, not one: the except branch of categorize_review evaluates
ReviewCategories(), which raises ValidationError because the five category
fields are required, and the gather filter then drops the exception result,
so run does not return exactly N results. -/
theorem C1_counterexample :
    (process_reviews_parallel llmRaise ["review a"]).length ≠ 1 := by decide

/-- C1 (amended): the returned sequence is always sorted in ascending
original-submission-index order, the surviving indices are distinct, and the
order is independent of task completion order (any arrival permutation sorts
to the same output); when every item's LLM call returns a parsed value — the
only case in which no task raises — the run returns exactly N results whose
index column is exactly 0..N-1; and transcribe_videos always returns exactly
one job per input url in submission order. -/
theorem C1_amended_thm (llm : LLMOracle) (reviews : List String) :
    List.Sorted (fun a b : ReviewResult => a.index ≤ b.index)
      (process_reviews_parallel llm reviews)
    ∧ ((process_reviews_parallel llm reviews).map ReviewResult.index).Nodup
    ∧ ((∀ r ∈ reviews, ∃ c, llm r = Except.ok (some c)) →
        (process_reviews_parallel llm reviews).map ReviewResult.index
          = List.range reviews.length)
    ∧ (∀ arrival : List ReviewResult,
        arrival.Perm (review_task_successes llm reviews) →
        sortByIndex arrival = process_reviews_parallel llm reviews)
    ∧ ∀ (outcomes : String → VideoOutcomes) (job_id_of : Nat → String) (now : Nat)
        (urls tags : List String),
        (transcribe_videos outcomes job_id_of now urls tags).map TranscriptionJob.url
          = urls := by
  refine ⟨sorted_sortByIndex _, ?_, ?_, ?_, ?_⟩
  · exact (((perm_sortByIndex (review_task_successes llm reviews)).map
      ReviewResult.index).nodup_iff).2 (successes_indices_nodup llm reviews)
  · intro h
    have hall : ∀ p ∈ reviews.enum, ∃ c, llm p.2 = Except.ok (some c) := by
      intro p hp
      exact h p.2 (List.get?_mem (List.mem_enum_iff_get?.mp hp))
    have hidx : (review_task_successes llm reviews).map ReviewResult.index
        = List.range reviews.length := by
      have := successes_indices_of_all_ok llm reviews.enum hall
      rw [List.enum_map_fst] at this
      exact this
    have hsorted : List.Sorted (fun a b : ReviewResult => a.index ≤ b.index)
        (review_task_successes llm reviews) := by
      have hpl : List.Pairwise (fun a b : Nat => a < b)
          ((review_task_successes llm reviews).map ReviewResult.index) := by
        rw [hidx]; exact List.pairwise_lt_range _
      exact (List.pairwise_map.1 hpl).imp (fun h => Nat.le_of_lt h)
    unfold process_reviews_parallel sortByIndex
    rw [hsorted.insertionSort_eq]
    exact hidx
  · intro arrival hperm
    exact sortByIndex_eq_of_perm arrival (review_task_successes llm reviews) hperm
      (successes_indices_nodup llm reviews)
  · intro outcomes job_id_of now urls tags
    unfold transcribe_videos
    rw [List.map_map]
    have : ∀ p ∈ urls.enum,
        (TranscriptionJob.url ∘ fun p : Nat × String =>
          process_video (TranscriptionJob.make p.2 (job_id_of p.1) now tags)
            (outcomes p.2) now) p = Prod.snd p := by
      intro p _
      exact process_video_url _ _ _
    rw [List.map_congr_left this, List.enum_map_snd]

/-- C1 (witness): a two-review batch with an always-parsing LLM returns both
results in index order, and a reversed arrival order sorts to the same
output. -/
theorem C1_amended_witness :
    (∀ r ∈ ["a", "b"], ∃ c, llmAllFalse r = Except.ok (some c))
    ∧ (process_reviews_parallel llmAllFalse ["a", "b"]).map ReviewResult.index
        = List.range 2
    ∧ sortByIndex [⟨"b", ReviewCategories.allFalse, 1⟩, ⟨"a", ReviewCategories.allFalse, 0⟩]
        = process_reviews_parallel llmAllFalse ["a", "b"] := by
  refine ⟨fun r _ => ⟨ReviewCategories.allFalse, rfl⟩, ?_, ?_⟩
  · exact (C1_amended_thm llmAllFalse ["a", "b"]).2.2.1
      (fun r _ => ⟨ReviewCategories.allFalse, rfl⟩)
  · exact (C1_amended_thm llmAllFalse ["a", "b"]).2.2.2.1 _ (by decide)

/-- C7 (code bug): evaluating categorize_review at an item whose LLM call
raises. The source comment says it returns the default all-false structure
with the original review and index, but the except branch evaluates
ReviewCategories(), whose five fields are required (no defaults), so the call
raises ValidationError instead of returning the default dict. -/
theorem C7_bug_eval :
    categorize_review llmRaise "too hard to learn" 0
      = Except.error
          "ValidationError: 5 validation errors for ReviewCategories (field required)"
    ∧ ∀ c : ReviewCategories,
        categorize_review llmRaise "too hard to learn" 0
          ≠ Except.ok ⟨"too hard to learn", c, 0⟩ := by
  exact ⟨rfl, fun c h => by cases h⟩

/-- C2 (counterexample): in the review runner a task whose processor raises
produces no Failure result at all: the gather result for the single item is
the raised ValidationError, and the filter drops it, returning an empty
result list with no record carrying index 0 or the fault description. -/
theorem C2_counterexample :
    gather_review_tasks llmRaise ["only review"]
      = [Except.error
          "ValidationError: 5 validation errors for ReviewCategories (field required)"]
    ∧ process_reviews_parallel llmRaise ["only review"] = [] :=
  ⟨rfl, rfl⟩

/-- C2 (amended): a raising task never propagates to sibling tasks or out of
the run call. In execute_tasks_and_combine a raised fault becomes the inline
entry naming the task (by default its index) and the fault description, and
every task contributes exactly one entry; in the transcription runner a
raised stage leaves the job FAILED with the fault description in its error
field; in the review runner, however, a raising task is dropped: no result
with its index appears in the output. -/
theorem C2_amended_thm :
    (∀ (tasks : List WikiTaskOutcome) (task_names : Option (List String))
        (i : Nat) (msg : String),
        tasks.get? i = some (Except.error msg) →
        (combinedEntries tasks task_names).get? i
          = some ("Error executing " ++ taskLabel task_names i ++ ": " ++ msg))
    ∧ (∀ (tasks : List WikiTaskOutcome) (task_names : Option (List String)),
        (combinedEntries tasks task_names).length = tasks.length)
    ∧ (∀ (job : TranscriptionJob) (o : VideoOutcomes) (now : Nat) (msg : String),
        o.download = Except.error msg →
        (process_video job o now).status = ProcessingStage.failed
          ∧ (process_video job o now).error = some msg)
    ∧ (∀ (job : TranscriptionJob) (o : VideoOutcomes) (now : Nat)
        (pr : String × String) (msg : String),
        o.download = Except.ok pr → o.transcribe_result = Except.error msg →
        (process_video job o now).status = ProcessingStage.failed
          ∧ (process_video job o now).error = some msg)
    ∧ (∀ (llm : LLMOracle) (reviews : List String) (i : Nat) (r : String),
        reviews.get? i = some r →
        (∀ c, llm r ≠ Except.ok (some c)) →
        ∀ res ∈ process_reviews_parallel llm reviews, res.index ≠ i) := by
  refine ⟨?_, ?_, ?_, ?_, ?_⟩
  · intro tasks task_names i msg h
    unfold combinedEntries
    rw [List.get?_map, List.get?_enum, h]
    rfl
  · intro tasks task_names
    simp [combinedEntries]
  · intro job o now msg h
    obtain ⟨d, t, os, u⟩ := o
    cases h
    exact ⟨rfl, rfl⟩
  · intro job o now pr msg h1 h2
    obtain ⟨d, t, os, u⟩ := o
    cases h1
    cases h2
    obtain ⟨pa, pb⟩ := pr
    exact ⟨rfl, rfl⟩
  · intro llm reviews i r hget hllm res hres hidx
    have hmem : res ∈ review_task_successes llm reviews :=
      (perm_sortByIndex (review_task_successes llm reviews)).mem_iff.1 hres
    obtain ⟨x, hx, hxres⟩ := List.mem_filterMap.1 hmem
    obtain ⟨p, hp, hpx⟩ := List.mem_map.1 hx
    have hxok : x = Except.ok res := by
      cases x with
      | ok v => cases hxres; rfl
      | error e => cases hxres
    rw [hxok] at hpx
    obtain ⟨c, hc, hv⟩ := categorize_review_ok llm p.2 p.1 res hpx
    have hpi : p.1 = i := by rw [hv] at hidx; exact hidx
    have hpr : p.2 = r := by
      have h2 := List.mem_enum_iff_get?.mp hp
      rw [hpi, hget] at h2
      exact (Option.some_inj.mp h2).symm
    exact hllm c (hpr ▸ hc)

/-- C2 (witness): a concrete raising wiki task is rendered inline with its
index and description; a concrete failing download leaves the job FAILED with
the message recorded. -/
theorem C2_amended_witness :
    ([Except.error "boom"] : List WikiTaskOutcome).get? 0
        = some (Except.error "boom")
    ∧ (combinedEntries [Except.error "boom"] none).get? 0
        = some "Error executing Task 0: boom"
    ∧ (process_video (TranscriptionJob.make "u" "j" 0 [])
        ⟨Except.error "dl failed", Except.ok "t", false, Except.ok ()⟩ 5).status
        = ProcessingStage.failed := by
  refine ⟨rfl, ?_, ?_⟩
  · exact C2_amended_thm.1 [Except.error "boom"] none 0 "boom" rfl
  · exact (C2_amended_thm.2.2.1 (TranscriptionJob.make "u" "j" 0 [])
      ⟨Except.error "dl failed", Except.ok "t", false, Except.ok ()⟩ 5 "dl failed" rfl).1

/- ===== claims C8 ===== -/

/-- Folding two items commutes: each counter update only adds. -/
lemma addCounts_comm (f : Frequencies) (a b : ReviewCategories) :
    addCounts (addCounts f a) b = addCounts (addCounts f b) a := by
  simp only [addCounts]
  simp
  omega

/-- The frequency fold is invariant under permutation of the item list. -/
lemma foldl_addCounts_perm {l₁ l₂ : List ReviewResult} (h : l₁.Perm l₂) :
    ∀ f : Frequencies,
      l₁.foldl (fun f item => addCounts f item.categories) f
        = l₂.foldl (fun f item => addCounts f item.categories) f := by
  induction h with
  | nil => intro f; rfl
  | cons x _ ih => intro f; exact ih _
  | swap x y l => intro f; simp only [List.foldl]; rw [addCounts_comm]
  | trans _ _ ih₁ ih₂ => intro f; rw [ih₁, ih₂]

/-- C8: calculate_frequencies is order-independent — any permutation of the
categorized results yields the same counters — and deterministic: evaluated
twice on the same fixed list it yields the identical output. -/
theorem C8_thm (l₁ l₂ : List ReviewResult) (h : l₁.Perm l₂) :
    calculate_frequencies l₁ = calculate_frequencies l₂
    ∧ calculate_frequencies l₁ = calculate_frequencies l₁ :=
  ⟨foldl_addCounts_perm h initFrequencies, rfl⟩

/-- C8 (witness): a concrete two-element list and its reversal count the
same. -/
theorem C8_witness :
    ([⟨"a", ReviewCategories.allFalse, 0⟩, ⟨"b", ReviewCategories.allFalse, 1⟩]
        : List ReviewResult).Perm
      [⟨"b", ReviewCategories.allFalse, 1⟩, ⟨"a", ReviewCategories.allFalse, 0⟩]
    ∧ calculate_frequencies
        [⟨"a", ReviewCategories.allFalse, 0⟩, ⟨"b", ReviewCategories.allFalse, 1⟩]
      = calculate_frequencies
        [⟨"b", ReviewCategories.allFalse, 1⟩, ⟨"a", ReviewCategories.allFalse, 0⟩] :=
  ⟨by decide,
   (C8_thm [⟨"a", ReviewCategories.allFalse, 0⟩, ⟨"b", ReviewCategories.allFalse, 1⟩]
      [⟨"b", ReviewCategories.allFalse, 1⟩, ⟨"a", ReviewCategories.allFalse, 0⟩]
      (by decide)).1⟩

/- ===== claims C3, C4 ===== -/

/-- Updating one list slot exchanges its contribution to a countP. -/
lemma countP_set_exchange (p : TaskPhase → Bool) :
    ∀ (l : List TaskPhase) (i : Nat) (v x : TaskPhase), l.get? i = some v →
      (l.set i x).countP p + (if p v then 1 else 0)
        = l.countP p + (if p x then 1 else 0) := by
  intro l
  induction l with
  | nil => intro i v x h; simp at h
  | cons a rest ih =>
      intro i v x h
      cases i with
      | zero =>
          have hv : a = v := by simpa using h
          subst hv
          simp [List.countP_cons]
          omega
      | succ n =>
          have h2 : rest.get? n = some v := by simpa using h
          have := ih n v x h2
          simp [List.countP_cons]
          omega

/-- No phase of the initial state is active. -/
lemma activeCount_init (permits n : Nat) : activeCount (initState permits n) = 0 := by
  unfold activeCount initState
  induction n with
  | zero => rfl
  | succ m ih => simpa [List.replicate_succ, List.countP_cons] using ih

/-- Gate invariant: free permits plus active processor invocations always
equal the configured bound. -/
lemma reachable_invariant (K n : Nat) (s : SchedState) (h : Reachable K n s) :
    s.avail + activeCount s = K := by
  unfold Reachable at h
  induction h with
  | refl => simpa [initState] using activeCount_init K n
  | tail _ hstep ih =>
      cases hstep with
      | acquire i a hph hav =>
          have hc := countP_set_exchange (fun p => decide (p = TaskPhase.active))
            _ i TaskPhase.waiting TaskPhase.active hph
          simp at hc
          unfold activeCount at *
          simp
          omega
      | release i ok hph =>
          have hc := countP_set_exchange (fun p => decide (p = TaskPhase.active))
            _ i TaskPhase.active (TaskPhase.done ok) hph
          simp at hc
          unfold activeCount at *
          simp
          omega

/-- C3: for every bound K with 1 ≤ K ≤ N, in every state reachable by the
interleaved execution no more than K processor invocations are active at
once: each task holds one semaphore permit while its processor runs and
releases it unconditionally, so the active count never exceeds the permit
count. -/
theorem C3_thm (K n : Nat) (h1 : 1 ≤ K) (h2 : K ≤ n) (s : SchedState)
    (hs : Reachable K n s) : activeCount s ≤ K := by
  have := reachable_invariant K n s hs
  omega

/-- C3 (witness): with bound 1 over a 2-task batch, the initial state is
reachable and within the bound. -/
theorem C3_witness :
    1 ≤ 1 ∧ 1 ≤ 2 ∧ activeCount (initState 1 2) ≤ 1 :=
  ⟨by decide, by decide,
   C3_thm 1 2 (by decide) (by decide) (initState 1 2) Relation.ReflTransGen.refl⟩

/-- Every slot of the initial phase list holds a waiting task. -/
lemma init_phase_waiting (permits n i : Nat) (v : TaskPhase)
    (h : (initState permits n).phases.get? i = some v) : v = TaskPhase.waiting := by
  unfold initState at h
  simp only [List.get?_eq_getElem?, List.getElem?_replicate] at h
  by_cases hi : i < n
  · rw [if_pos hi] at h; exact (Option.some_inj.mp h).symm
  · rw [if_neg hi] at h; cases h

/-- With zero permits nothing can ever step: the initial state is the only
reachable state. -/
lemma reachable_zero_frozen (n : Nat) (s : SchedState) (h : Reachable 0 n s) :
    s = initState 0 n := by
  unfold Reachable at h
  induction h with
  | refl => rfl
  | tail _ hstep ih =>
      subst ih
      cases hstep with
      | acquire i a hph hav => simp [initState] at hav
      | release i ok hph =>
          have := init_phase_waiting 0 n i TaskPhase.active hph
          cases this

/-- C4 (counterexample): max_concurrency = 0 is invalid under the claim
(0 < 1), yet the run raises nothing: asyncio.Semaphore(0) constructs
normally and the call hangs instead of raising. -/
theorem C4_counterexample :
    Semaphore.new 0 = Except.ok 0
    ∧ process_reviews_parallel_run llmAllFalse ["r"] 0 = RunOutcome.hangs :=
  ⟨rfl, rfl⟩

/-- C4 (amended): the run raises if and only if max_concurrency is negative
(the only configuration asyncio.Semaphore rejects), and VideoTranscriber
construction raises if and only if OPENAI_API_KEY is missing or empty; at
max_concurrency = 0 with a nonempty batch the run never raises and never
completes (from the zero-permit initial state no scheduler step is enabled,
so the batch never reaches the all-done join); for every max_concurrency ≥ 1
the run returns normally — per-item processor faults never raise out of it. -/
theorem C4_amended_thm :
    (∀ K : Int, (∃ e, Semaphore.new K = Except.error e) ↔ K < 0)
    ∧ (∀ key, (∃ e, videoTranscriberInitCheck key = Except.error e)
        ↔ (key = none ∨ key = some ""))
    ∧ (∀ (llm : LLMOracle) (reviews : List String) (K : Int), 1 ≤ K →
        process_reviews_parallel_run llm reviews K
          = RunOutcome.returned (process_reviews_parallel llm reviews))
    ∧ (∀ (llm : LLMOracle) (reviews : List String), reviews ≠ [] →
        process_reviews_parallel_run llm reviews 0 = RunOutcome.hangs)
    ∧ (∀ (n : Nat) (s : SchedState), 1 ≤ n → Reachable 0 n s →
        s = initState 0 n ∧ allDone s = false) := by
  refine ⟨?_, ?_, ?_, ?_, ?_⟩
  · intro K
    constructor
    · rintro ⟨e, he⟩
      by_contra hK
      simp [Semaphore.new, hK] at he
    · intro hK
      exact ⟨"Semaphore initial value must be >= 0", by simp [Semaphore.new, hK]⟩
  · intro key
    cases key with
    | none => simp [videoTranscriberInitCheck]
    | some k =>
        by_cases hk : k = ""
        · subst hk; simp [videoTranscriberInitCheck]
        · simp [videoTranscriberInitCheck, hk]
  · intro llm reviews K hK
    unfold process_reviews_parallel_run Semaphore.new
    rw [if_neg (by omega)]
    have hnz : ¬(K.toNat = 0 ∧ reviews ≠ []) := by
      rintro ⟨h0, _⟩
      omega
    simp only [hnz, if_false]
  · intro llm reviews hne
    unfold process_reviews_parallel_run Semaphore.new
    rw [if_neg (by omega)]
    simp [hne]
  · intro n s hn hs
    have hfrozen := reachable_zero_frozen n s hs
    subst hfrozen
    refine ⟨rfl, ?_⟩
    cases n with
    | zero => cases hn
    | succ m => simp [initState, allDone, List.replicate_succ]

/-- C4 (witness): a negative bound raises, bound 1 returns normally even when
every task faults, and the frozen zero-permit state over two tasks is not
done. -/
theorem C4_amended_witness :
    ((-1 : Int) < 0 ∧ ∃ e, Semaphore.new (-1) = Except.error e)
    ∧ process_reviews_parallel_run llmRaise ["r"] 1
        = RunOutcome.returned (process_reviews_parallel llmRaise ["r"])
    ∧ allDone (initState 0 2) = false :=
  ⟨⟨by decide, (C4_amended_thm.1 (-1)).mpr (by decide)⟩,
   C4_amended_thm.2.2.1 llmRaise ["r"] 1 (by decide),
   (C4_amended_thm.2.2.2.2 2 (initState 0 2) (by decide)
      Relation.ReflTransGen.refl).2⟩

/- ===== claims C5 ===== -/

/-- From every non-terminal stage that a run can visit, some continuation of
collaborator outcomes reaches FAILED. -/
lemma failed_reachable_from (o : VideoOutcomes) (st : ProcessingStage)
    (hterm : stageTerminal st = false) (hmem : st ∈ process_video_trace o) :
    ∃ o2, st ∈ process_video_trace o2
      ∧ (process_video_trace o2).getLast? = some ProcessingStage.failed := by
  cases st with
  | pending =>
      exact ⟨⟨Except.error "e", Except.error "e", false, Except.error "e"⟩,
        by decide, by decide⟩
  | downloading =>
      exact ⟨⟨Except.error "e", Except.error "e", false, Except.error "e"⟩,
        by decide, by decide⟩
  | transcribing =>
      exact ⟨⟨Except.ok ("p", "t"), Except.error "e", false, Except.ok ()⟩,
        by decide, by decide⟩
  | summarizing =>
      exfalso
      obtain ⟨d, t, os, u⟩ := o
      rcases d with e | ⟨pa, pb⟩ <;> rcases t with e2 | tv <;> cases os <;>
        rcases u with e3 | ⟨⟩ <;> simp [process_video_trace] at hmem
  | uploading =>
      exact ⟨⟨Except.ok ("p", "t"), Except.ok "tr", true, Except.error "e"⟩,
        by decide, by decide⟩
  | completed => simp [stageTerminal] at hterm
  | failed => simp [stageTerminal] at hterm

/-- C5: the status trace of every run respects the pipeline order — each
transition goes from a non-terminal stage strictly forward (a FAILED move is
allowed from every non-terminal stage, never from COMPLETED) — the trace ends
in a terminal stage, every snapshot of the job record before the final one is
non-terminal (so after FAILED or COMPLETED no field mutation occurs), and
from every non-terminal stage a run can visit, FAILED is reachable. -/
theorem C5_thm (job : TranscriptionJob) (o : VideoOutcomes) (now : Nat)
    (hjob : job.status = ProcessingStage.pending) :
    List.Chain' allowedTransition (process_video_trace o)
    ∧ (∃ t, (process_video_trace o).getLast? = some t ∧ stageTerminal t = true)
    ∧ (((process_video_snapshots job o now).map TranscriptionJob.status).dropLast.all
        (fun st => !stageTerminal st) = true)
    ∧ (∀ st, stageTerminal st = false → st ∈ process_video_trace o →
        ∃ o2, st ∈ process_video_trace o2
          ∧ (process_video_trace o2).getLast? = some ProcessingStage.failed) := by
  refine ⟨?_, ?_, ?_, fun st h1 h2 => failed_reachable_from o st h1 h2⟩
  · obtain ⟨d, t, os, u⟩ := o
    rcases d with e | ⟨pa, pb⟩ <;> rcases t with e2 | tv <;> cases os <;>
      rcases u with e3 | ⟨⟩ <;>
      simp [process_video_trace, List.chain'_cons, allowedTransition, stageTerminal,
        stageRank]
  · obtain ⟨d, t, os, u⟩ := o
    rcases d with e | ⟨pa, pb⟩ <;> rcases t with e2 | tv <;> cases os <;>
      rcases u with e3 | ⟨⟩ <;> exact ⟨_, rfl, rfl⟩
  · obtain ⟨d, t, os, u⟩ := o
    rcases d with e | ⟨pa, pb⟩ <;> rcases t with e2 | tv <;> cases os <;>
      rcases u with e3 | ⟨⟩ <;>
      simp [process_video_snapshots, hjob, stageTerminal]

/-- C5 (witness): a freshly created job is PENDING, and the trace of a run
whose download fails is an allowed chain ending FAILED. -/
theorem C5_witness :
    (TranscriptionJob.make "u" "j" 0 []).status = ProcessingStage.pending
    ∧ List.Chain' allowedTransition
        (process_video_trace ⟨Except.error "dl", Except.ok "t", false, Except.ok ()⟩)
    ∧ (((process_video_snapshots (TranscriptionJob.make "u" "j" 0 [])
          ⟨Except.error "dl", Except.ok "t", false, Except.ok ()⟩ 0).map
          TranscriptionJob.status).dropLast.all (fun st => !stageTerminal st) = true) :=
  ⟨rfl,
   (C5_thm (TranscriptionJob.make "u" "j" 0 [])
      ⟨Except.error "dl", Except.ok "t", false, Except.ok ()⟩ 0 rfl).1,
   (C5_thm (TranscriptionJob.make "u" "j" 0 [])
      ⟨Except.error "dl", Except.ok "t", false, Except.ok ()⟩ 0 rfl).2.2.1⟩

/- ===== claims C6, C10 ===== -/

/-- Lookup after a dict assignment: the assigned key maps to the new value,
every other key is untouched. -/
lemma dictLookup_insert (dates : MatchDates) (m k : String) (v : Option Int) :
    dictLookup (dictInsert dates m v) k
      = if k = m then some v else dictLookup dates k := by
  induction dates with
  | nil =>
      by_cases h : k = m
      · subst h; simp [dictInsert, dictLookup]
      · have hm : ¬ m = k := fun hh => h hh.symm
        simp [dictInsert, dictLookup, h, hm]
  | cons p rest ih =>
      by_cases h1 : p.1 = m
      · by_cases h2 : k = m
        · subst h2; simp [dictInsert, dictLookup, h1]
        · have hm : ¬ m = k := fun hh => h2 hh.symm
          have hp : ¬ p.1 = k := fun hh => h2 (by rw [← hh]; exact h1)
          simp [dictInsert, dictLookup, h1, h2, hm, hp]
      · by_cases h2 : k = m
        · subst h2; simp [dictInsert, dictLookup, h1, ih]
        · simp [dictInsert, dictLookup, h1, h2, ih]

/-- One run of the while loop either leaves the mapping untouched with no
write (retry chain ending in abandonment or exhaustion) or assigns exactly
this match id and writes that single updated mapping. -/
lemma fetchMatchDate_dates_writes (mid : String) :
    ∀ (rs : List RiotResponse) (d : ℚ) (dates : MatchDates),
      ((fetchMatchDate mid rs d dates).dates = dates
        ∧ (fetchMatchDate mid rs d dates).writes = [])
      ∨ (∃ ts, (fetchMatchDate mid rs d dates).dates = dictInsert dates mid ts
          ∧ (fetchMatchDate mid rs d dates).writes
              = [dictInsert dates mid ts]) := by
  intro rs
  induction rs with
  | nil => intro d dates; left; exact ⟨rfl, rfl⟩
  | cons r rest ih =>
      intro d dates
      by_cases h429 : r.status = 429
      · simpa [fetchMatchDate, h429] using ih (min (d * 2) 60) dates
      · by_cases h200 : r.status = 200
        · right
          refine ⟨r.gameStartTimestamp, ?_, ?_⟩ <;>
            simp [fetchMatchDate, h429, h200]
        · left
          constructor <;> simp [fetchMatchDate, h429, h200]

/-- A key already recorded stays recorded through one while-loop run. -/
lemma fetchMatchDate_preserves_present (mid k : String) (rs : List RiotResponse)
    (d : ℚ) (dates : MatchDates) (h : dictLookup dates k ≠ none) :
    dictLookup (fetchMatchDate mid rs d dates).dates k ≠ none := by
  rcases fetchMatchDate_dates_writes mid rs d dates with ⟨hd, _⟩ | ⟨ts, hd, _⟩
  · rw [hd]; exact h
  · rw [hd, dictLookup_insert]
    by_cases hk : k = mid
    · simp [hk]
    · simpa [hk] using h

/-- Every match id an HTTP request was issued for was absent from the mapping
as it stood when the run reached it — and in particular absent from the
loaded file: requests are resumed by checking the existing key. -/
lemma requested_not_recorded (resps : String → List RiotResponse) :
    ∀ (mids : List String) (d : ℚ) (dates : MatchDates) (mid : String),
      mid ∈ (fetchAllMatchDates resps mids d dates).requestedIds →
      dictLookup dates mid = none := by
  intro mids
  induction mids with
  | nil => intro d dates mid h; simp [fetchAllMatchDates] at h
  | cons m rest ih =>
      intro d dates mid h
      by_cases hm : (dictLookup dates m).isSome
      · rw [fetchAllMatchDates, if_pos hm] at h
        exact ih _ _ _ h
      · rw [fetchAllMatchDates, if_neg hm] at h
        simp only [] at h
        rcases List.mem_append.1 h with hl | hr
        · have := List.eq_of_mem_replicate hl
          subst this
          exact Option.not_isSome_iff_eq_none.1 hm
        · have h2 := ih _ _ _ hr
          by_contra hne
          exact fetchMatchDate_preserves_present m mid (resps m) d dates hne h2

/-- Doubling then capping commutes with the closed form of the backoff. -/
lemma backoff_double_cap (d : ℚ) (h0 : 0 ≤ d) (j : Nat) :
    min (min (d * 2) 60 * 2 ^ j) 60 = min (d * 2 ^ (j + 1)) 60 := by
  rcases le_total (d * 2) 60 with h | h
  · rw [min_eq_left h]
    have hpow : d * 2 * 2 ^ j = d * 2 ^ (j + 1) := by ring
    rw [hpow]
  · have h2 : (1 : ℚ) ≤ 2 ^ j := one_le_pow₀ (by norm_num)
    have hp : (0 : ℚ) ≤ 2 ^ j := by positivity
    have hL : (60 : ℚ) ≤ 60 * 2 ^ j := by nlinarith
    have hR : (60 : ℚ) ≤ d * 2 ^ (j + 1) := by
      have hh : d * 2 ^ (j + 1) = d * 2 * 2 ^ j := by ring
      rw [hh]; nlinarith
    rw [min_eq_right h, min_eq_right hL, min_eq_right hR]

/-- Closed form of one while-loop run that sees k consecutive 429 responses
followed by a 200: the k retry sleeps follow the doubling backoff capped at
60 starting from the current delay, the success records and writes the single
updated mapping, sleeps the reset 0.1 delay, and leaves the delay at 0.1;
k + 1 requests were issued. -/
lemma fetchMatchDate_backoff (mid : String) (ts : Option Int)
    (rest : List RiotResponse) (dates : MatchDates) :
    ∀ (k : Nat) (d : ℚ), 0 ≤ d → d ≤ 60 →
      fetchMatchDate mid (List.replicate k ⟨429, none⟩ ++ ⟨200, ts⟩ :: rest) d dates
        = ⟨dictInsert dates mid ts, 1/10, [dictInsert dates mid ts],
           ((List.range k).map (fun j => min (d * 2 ^ j) 60)) ++ [1/10], k + 1⟩ := by
  intro k
  induction k with
  | zero =>
      intro d h0 h60
      simp [fetchMatchDate]
  | succ m ih =>
      intro d h0 h60
      have hd2 : (0 : ℚ) ≤ min (d * 2) 60 := le_min (by nlinarith) (by norm_num)
      have hd60 : min (d * 2) 60 ≤ 60 := min_le_right _ _
      have hsleeps :
          (List.range (m + 1)).map (fun j => min (d * 2 ^ j) 60)
            = d :: (List.range m).map (fun j => min (min (d * 2) 60 * 2 ^ j) 60) := by
        rw [List.range_succ_eq_map, List.map_cons, List.map_map]
        refine congrArg₂ List.cons ?_ ?_
        · simp [min_eq_left h60]
        · refine List.map_congr_left ?_
          intro j _
          simp only [Function.comp]
          exact (backoff_double_cap d h0 j).symm
      rw [List.replicate_succ, List.cons_append]
      rw [show fetchMatchDate mid
            (⟨429, none⟩ :: (List.replicate m ⟨429, none⟩ ++ ⟨200, ts⟩ :: rest)) d dates
          = ⟨(fetchMatchDate mid (List.replicate m ⟨429, none⟩ ++ ⟨200, ts⟩ :: rest)
                (min (d * 2) 60) dates).dates,
             (fetchMatchDate mid (List.replicate m ⟨429, none⟩ ++ ⟨200, ts⟩ :: rest)
                (min (d * 2) 60) dates).delay,
             (fetchMatchDate mid (List.replicate m ⟨429, none⟩ ++ ⟨200, ts⟩ :: rest)
                (min (d * 2) 60) dates).writes,
             d :: (fetchMatchDate mid (List.replicate m ⟨429, none⟩ ++ ⟨200, ts⟩ :: rest)
                (min (d * 2) 60) dates).sleeps,
             (fetchMatchDate mid (List.replicate m ⟨429, none⟩ ++ ⟨200, ts⟩ :: rest)
                (min (d * 2) 60) dates).requests + 1⟩
          from by simp [fetchMatchDate]]
      rw [ih (min (d * 2) 60) hd2 hd60]
      simp [hsleeps]

/-- The loaded mapping, every snapshot written during a run, and the final
mapping form a chain under inclusion: entries are only ever added. -/
lemma writes_chain (resps : String → List RiotResponse) :
    ∀ (mids : List String) (d : ℚ) (dates : MatchDates),
      List.Chain' dictSubmap
        (dates :: ((fetchAllMatchDates resps mids d dates).writes
          ++ [(fetchAllMatchDates resps mids d dates).dates])) := by
  intro mids
  induction mids with
  | nil =>
      intro d dates
      simp [fetchAllMatchDates]
      intro k v h
      exact h
  | cons m rest ih =>
      intro d dates
      by_cases hm : (dictLookup dates m).isSome
      · rw [fetchAllMatchDates, if_pos hm]
        exact ih _ _
      · rw [fetchAllMatchDates, if_neg hm]
        simp only []
        rcases fetchMatchDate_dates_writes m (resps m) d dates with ⟨hd, hw⟩ | ⟨ts, hd, hw⟩
        · rw [hw, hd]
          simpa using ih (fetchMatchDate m (resps m) d dates).delay dates
        · rw [hw, hd]
          have hsub : dictSubmap dates (dictInsert dates m ts) := by
            intro k v h
            rw [dictLookup_insert]
            by_cases hk : k = m
            · subst hk
              rw [Option.not_isSome_iff_eq_none.1 hm] at h
              cases h
            · simpa [hk] using h
          have hrest := ih (fetchMatchDate m (resps m) d dates).delay
            (dictInsert dates m ts)
          simpa [List.chain'_cons] using And.intro hsub hrest

/-- C6: the match-date fetch loop. A run of the while loop that sees k
consecutive 429 responses and then a 200 sleeps the exponentially doubling
delays capped at 60 seconds, records the date, writes the mapping, and resets
the delay to 0.1; any other non-200 response abandons that single id — the
mapping is unchanged, nothing is written, and the outer loop carries on with
the remaining ids; and every id a request is issued for is absent from the
mapping, so a restarted run only processes ids not already in the saved
file. -/
theorem C6_thm :
    (∀ (mid : String) (k : Nat) (ts : Option Int) (rest : List RiotResponse)
        (dates : MatchDates),
        fetchMatchDate mid (List.replicate k ⟨429, none⟩ ++ ⟨200, ts⟩ :: rest)
            (1/10) dates
          = ⟨dictInsert dates mid ts, 1/10, [dictInsert dates mid ts],
             ((List.range k).map (fun j => min ((1/10 : ℚ) * 2 ^ j) 60)) ++ [1/10],
             k + 1⟩)
    ∧ (∀ (mid : String) (c : Nat) (ts : Option Int) (rest : List RiotResponse)
        (d : ℚ) (dates : MatchDates), c ≠ 429 → c ≠ 200 →
        fetchMatchDate mid (⟨c, ts⟩ :: rest) d dates = ⟨dates, d, [], [], 1⟩)
    ∧ (∀ (resps : String → List RiotResponse) (mid : String) (rest : List String)
        (d : ℚ) (dates : MatchDates) (c : Nat) (ts : Option Int)
        (rest2 : List RiotResponse),
        dictLookup dates mid = none → resps mid = ⟨c, ts⟩ :: rest2 →
        c ≠ 429 → c ≠ 200 →
        fetchAllMatchDates resps (mid :: rest) d dates
          = ⟨(fetchAllMatchDates resps rest d dates).dates,
             (fetchAllMatchDates resps rest d dates).delay,
             (fetchAllMatchDates resps rest d dates).writes,
             mid :: (fetchAllMatchDates resps rest d dates).requestedIds⟩)
    ∧ (∀ (resps : String → List RiotResponse) (mids : List String) (d : ℚ)
        (dates : MatchDates) (mid : String),
        mid ∈ (fetchAllMatchDates resps mids d dates).requestedIds →
        dictLookup dates mid = none) := by
  refine ⟨?_, ?_, ?_, requested_not_recorded⟩
  · intro mid k ts rest dates
    exact fetchMatchDate_backoff mid ts rest dates k (1/10) (by norm_num) (by norm_num)
  · intro mid c ts rest d dates h429 h200
    simp [fetchMatchDate, h429, h200]
  · intro resps mid rest d dates c ts rest2 hlook hresp h429 h200
    rw [fetchAllMatchDates, if_neg (by simp [hlook])]
    rw [hresp]
    simp [fetchMatchDate, h429, h200]

/-- C6 (witness): one 429 then a 200 sleeps 0.1 then the reset 0.1, records
and writes the date (the closed form evaluates to those concrete values); a
404 abandons the id unchanged; and the id requested in a concrete run was
absent from the loaded mapping. -/
theorem C6_witness :
    (fetchMatchDate "m1"
        (List.replicate 1 ⟨429, none⟩ ++ ⟨200, some 5⟩ :: ([] : List RiotResponse))
        (1/10) ([] : MatchDates)
      = ⟨dictInsert [] "m1" (some 5), 1/10, [dictInsert [] "m1" (some 5)],
         ((List.range 1).map (fun j => min ((1/10 : ℚ) * 2 ^ j) 60)) ++ [1/10], 1 + 1⟩)
    ∧ fetchMatchDate "m1" [⟨429, none⟩, ⟨200, some 5⟩] (1/10) []
        = ⟨[("m1", some 5)], 1/10, [[("m1", some 5)]], [1/10, 1/10], 2⟩
    ∧ fetchMatchDate "m2" [⟨404, none⟩] (1/10) [("m0", some 3)]
        = ⟨[("m0", some 3)], 1/10, [], [], 1⟩
    ∧ ("m1" ∈ (fetchAllMatchDates (fun _ => [⟨200, some 5⟩]) ["m1"] (1/10) []).requestedIds
        ∧ dictLookup [] "m1" = none) := by
  refine ⟨?_, ?_, ?_, ?_, ?_⟩
  · exact C6_thm.1 "m1" 1 (some 5) [] []
  · rfl
  · exact C6_thm.2.1 "m2" 404 none [] (1/10) [("m0", some 3)] (by decide) (by decide)
  · exact List.Mem.head _
  · exact C6_thm.2.2.2 (fun _ => [⟨200, some 5⟩]) ["m1"] (1/10) [] "m1"
      (List.Mem.head _)

/-- C10: frame properties of the match-date loop. An id already present in
the mapping is skipped — the run proceeds exactly as if the id were not in
the list, with no request issued for it (third conjunct); a successful fetch
assigns only its own id, leaving the entry of every other key unchanged; and
the loaded mapping, all written snapshots and the final mapping form an
inclusion chain, so the persisted mapping grows monotonically. -/
theorem C10_thm :
    (∀ (resps : String → List RiotResponse) (mid : String) (rest : List String)
        (d : ℚ) (dates : MatchDates), (dictLookup dates mid).isSome →
        fetchAllMatchDates resps (mid :: rest) d dates
          = fetchAllMatchDates resps rest d dates)
    ∧ (∀ (dates : MatchDates) (mid : String) (ts : Option Int) (k : String),
        k ≠ mid → dictLookup (dictInsert dates mid ts) k = dictLookup dates k)
    ∧ (∀ (resps : String → List RiotResponse) (mids : List String) (d : ℚ)
        (dates : MatchDates) (mid : String), (dictLookup dates mid).isSome →
        mid ∉ (fetchAllMatchDates resps mids d dates).requestedIds)
    ∧ (∀ (resps : String → List RiotResponse) (mids : List String) (d : ℚ)
        (dates : MatchDates),
        List.Chain' dictSubmap
          (dates :: ((fetchAllMatchDates resps mids d dates).writes
            ++ [(fetchAllMatchDates resps mids d dates).dates]))) := by
  refine ⟨?_, ?_, ?_, writes_chain⟩
  · intro resps mid rest d dates h
    rw [fetchAllMatchDates, if_pos h]
  · intro dates mid ts k hk
    rw [dictLookup_insert, if_neg hk]
  · intro resps mids d dates mid h hmem
    rw [requested_not_recorded resps mids d dates mid hmem] at h
    cases h

/-- C10 (witness): with one already-recorded id the run is the same as with
no ids and issues no request for it; a concrete insert leaves the other key
unchanged. -/
theorem C10_witness :
    (dictLookup [("m0", some 3)] "m0").isSome
    ∧ fetchAllMatchDates (fun _ => [⟨200, some 5⟩]) ["m0"] (1/10) [("m0", some 3)]
        = fetchAllMatchDates (fun _ => [⟨200, some 5⟩]) [] (1/10) [("m0", some 3)]
    ∧ dictLookup (dictInsert [("m0", some 3)] "m1" (some 5)) "m0" = some (some 3)
    ∧ "m0" ∉ (fetchAllMatchDates (fun _ => [⟨200, some 5⟩]) ["m0"] (1/10)
        [("m0", some 3)]).requestedIds := by
  refine ⟨by decide, ?_, ?_, ?_⟩
  · exact C10_thm.1 (fun _ => [⟨200, some 5⟩]) "m0" [] (1/10) [("m0", some 3)]
      (by decide)
  · exact (C10_thm.2.1 [("m0", some 3)] "m1" (some 5) "m0" (by decide)).trans rfl
  · exact C10_thm.2.2.1 (fun _ => [⟨200, some 5⟩]) ["m0"] (1/10) [("m0", some 3)]
      "m0" (by decide)

/- ===== claims C9 ===== -/

/-- C9: every wiki tool truncates its input to the first 5 entries before
fetching: the task list it builds has exactly min(n, 5) page fetches, and the
combined output is identical to the output for the truncated input — entries
past the fifth are silently ignored, not rejected. -/
theorem C9_thm (fetch : FetchOracle) (l : List String) :
    ((championTasks fetch l).length = min l.length 5
      ∧ get_champion_data fetch l = get_champion_data fetch (l.take 5))
    ∧ ((runesTasks fetch l).length = min l.length 5
      ∧ get_runes_data fetch l = get_runes_data fetch (l.take 5))
    ∧ ((summonerSpellTasks fetch l).length = min l.length 5
      ∧ get_summoner_spell_data fetch l = get_summoner_spell_data fetch (l.take 5))
    ∧ ((itemTasks fetch l).length = min l.length 5
      ∧ get_item_data fetch l = get_item_data fetch (l.take 5))
    ∧ ((monsterTasks fetch l).length = min l.length 5
      ∧ get_monster_data fetch l = get_monster_data fetch (l.take 5)) := by
  refine ⟨⟨?_, ?_⟩, ⟨?_, ?_⟩, ⟨?_, ?_⟩, ⟨?_, ?_⟩, ⟨?_, ?_⟩⟩ <;>
    simp [championTasks, runesTasks, summonerSpellTasks, itemTasks, monsterTasks,
      get_champion_data, get_runes_data, get_summoner_spell_data, get_item_data,
      get_monster_data, MAX_CHAMPIONS_PER_CALL, List.take_take, Nat.min_comm]
